import Mathlib

/-!
Shallow embedding of `scp_r2r.py` (secure copy between two remote hosts).

Python dictionaries are modelled as association lists with in-place update
(`d[k] = v` replaces the value of the first pair holding `k`, or appends a
new pair); Python `str` is Lean `String`; external child processes are
modelled by an oracle recording each process's outcome; `os.environ` is
threaded explicitly as a dictionary.  Exceptions (`ScpError`, `KeyError`)
become an explicit error type.  Functions that recurse on positions inside a
string take a fuel argument that is always initialised to more than the
total size of the input, so the definitions stay structurally recursive and
kernel-evaluable; the fuel-out branch is unreachable for those inputs.
-/

/-- Python `dict` with string keys and values, as an association list. -/
abbrev Dict := List (String × String)

/-- `d.get?(k)`: value of the first pair holding key `k`. -/
def Dict.get? : Dict → String → Option String
  | [], _ => none
  | (k, v) :: rest, key => if k = key then some v else Dict.get? rest key

/-- `d[k] = v`: replace the value of the first pair holding `k` in place,
or append a new pair. -/
def Dict.update1 : Dict → String → String → Dict
  | [], k, v => [(k, v)]
  | (k', v') :: rest, k, v =>
    if k' = k then (k', v) :: rest else (k', v') :: Dict.update1 rest k v

/-- `d.update(other)`: fold `d[k] = v` over the pairs of `other` in order. -/
def Dict.updateAll (d other : Dict) : Dict :=
  other.foldl (fun acc kv => acc.update1 kv.1 kv.2) d

/-- `d.has_key(k)`. -/
def Dict.hasKey (d : Dict) (k : String) : Bool :=
  (d.get? k).isSome

/-- The keys of a dictionary, in storage order. -/
def Dict.keys (d : Dict) : List String :=
  d.map Prod.fst

/-- `del d[k]`: remove the first pair holding `k` (a no-op when `k` is
absent; the program only deletes keys it has just written). -/
def Dict.delete1 : Dict → String → Dict
  | [], _ => []
  | (k, v) :: rest, key => if k = key then rest else (k, v) :: Dict.delete1 rest key

/-- Left-biased choice on options (`a` wins when defined). -/
def orElseO (a b : Option String) : Option String :=
  match a with
  | some v => some v
  | none => b

/-! ### `fnmatch.fnmatch`: shell-style glob matching

`SSHConfig.lookup` selects rules with `fnmatch.fnmatch(hostname, pattern)`.
The CPython matcher translates the pattern to an anchored regex: `*` becomes
`.*`, `?` becomes `.`, a bracketed set becomes a character class (a leading
`!` negates, a `]` right after the opening position is part of the set, an
unclosed `[` is a literal), every other character is literal. -/

/-- Scan for the closing `]` of a character set; returns the set body and
the remainder of the pattern after the `]`. -/
def scanClose : List Char → Option (List Char × List Char)
  | [] => none
  | ']' :: rest => some ([], rest)
  | c :: rest =>
    match scanClose rest with
    | some (body, after) => some (c :: body, after)
    | none => none

/-- Split a bracketed set at its closing `]`, honouring the scan rules of
`fnmatch.translate`: a leading `!` is skipped, and a `]` appearing first
(after the optional `!`) belongs to the set body. -/
def splitBracket : List Char → Option (List Char × List Char)
  | '!' :: ']' :: rest =>
    (match scanClose rest with
     | some (body, after) => some ('!' :: ']' :: body, after)
     | none => none)
  | '!' :: rest =>
    (match scanClose rest with
     | some (body, after) => some ('!' :: body, after)
     | none => none)
  | ']' :: rest =>
    (match scanClose rest with
     | some (body, after) => some (']' :: body, after)
     | none => none)
  | ps => scanClose ps

/-- Membership of a character in a set body, with `a-b` ranges as in a
regular-expression character class. -/
def inCharSet : List Char → Char → Bool
  | a :: '-' :: b :: rest, c =>
    (Nat.ble a.toNat c.toNat && Nat.ble c.toNat b.toNat) || inCharSet rest c
  | a :: rest, c => (a == c) || inCharSet rest c
  | [], _ => false

/-- Match of one character against a bracketed set (leading `!` negates). -/
def setMatch (body : List Char) (c : Char) : Bool :=
  match body with
  | '!' :: rest => !(inCharSet rest c)
  | _ => inCharSet body c

/-- Glob matching with fuel; the callers pass fuel exceeding
`pattern.length + string.length`, and every step consumes at least one
character of pattern or string, so the fuel-out branch is unreachable. -/
def globGo : Nat → List Char → List Char → Bool
  | 0, _, _ => false
  | _ + 1, [], [] => true
  | _ + 1, [], _ :: _ => false
  | fuel + 1, '*' :: ps, s =>
    globGo fuel ps s ||
      (match s with
       | [] => false
       | _ :: s2 => globGo fuel ('*' :: ps) s2)
  | fuel + 1, '?' :: ps, s =>
    (match s with
     | [] => false
     | _ :: s2 => globGo fuel ps s2)
  | fuel + 1, '[' :: ps, s =>
    (match splitBracket ps with
     | some (body, rest) =>
       (match s with
        | [] => false
        | c :: s2 => setMatch body c && globGo fuel rest s2)
     | none =>
       (match s with
        | '[' :: s2 => globGo fuel ps s2
        | _ => false))
  | fuel + 1, p :: ps, s =>
    (match s with
     | [] => false
     | c :: s2 => (p == c) && globGo fuel ps s2)

/-- `fnmatch.fnmatch(name, pat)` (POSIX `normcase` is the identity). -/
def globMatchStr (pat name : String) : Bool :=
  globGo (pat.data.length + name.data.length + 1) pat.data name.data

/-! ### `SSHConfig`

`SSHConfig._config` is a list of rule dictionaries; every rule carries a
`host` key (set when the rule is created during parsing). -/

/-- The parsed configuration: the `_config` rule list. -/
abbrev SSHConfig := List Dict

/-- `len(x['host'])`, the sort key of `lookup` (every rule carries `host`). -/
def patLen (r : Dict) : Nat :=
  ((r.get? "host").getD "").length

/-- Insert a rule into a length-sorted rule list, before the first rule of
length `≥` its own, matching the stable ascending sort of `matches.sort`. -/
def insertByLen (r : Dict) : List Dict → List Dict
  | [] => [r]
  | x :: xs => if patLen x < patLen r then x :: insertByLen r xs else r :: x :: xs

/-- Stable sort of the matching rules in ascending pattern length
(`matches.sort(lambda x,y: cmp(len(x['host']), len(y['host'])))`). -/
def sortByLen : List Dict → List Dict
  | [] => []
  | x :: xs => insertByLen x (sortByLen xs)

/-- `[x for x in self._config if fnmatch.fnmatch(hostname, x['host'])]`. -/
def matchingRules (config : SSHConfig) (hostname : String) : List Dict :=
  config.filter (fun x => globMatchStr ((x.get? "host").getD "") hostname)

/-- `SSHConfig.lookup`: merge the sorted matching rules with `ret.update(m)`
(later rules overwrite), then `del ret['host']`. -/
def lookup (config : SSHConfig) (hostname : String) : Dict :=
  ((sortByLen (matchingRules config hostname)).foldl Dict.updateAll []).delete1 "host"

/-- Modelled from the spec's words for §4.2 HostResolver: the value the
merged mapping assigns to `key` is the one of the *last* rule defining
`key` among the matching rules sorted ascending by pattern length (ties in
parse order) — "later entries overwriting earlier keys on conflict". -/
def lookupSpecValue (config : SSHConfig) (hostname key : String) : Option String :=
  ((sortByLen (matchingRules config hostname)).reverse).findSome? (fun m => m.get? key)

/-! ### Errors, events, options -/

/-- Python exceptions surfaced by the program: `ScpError(msg)` and a
dictionary `KeyError(key)`. -/
inductive PyErr where
  | scpError (msg : String)
  | keyError (key : String)
deriving DecidableEq

/-- Observable steps of one run (config read, known-host listing, agent
spawn, `ssh-add`, the outer `ssh … scp` invocation, agent kill). -/
inductive Event where
  | readConfig
  | listKnownHosts (hosts : List String)
  | agentStart
  | loadKeys (files : List String)
  | runScp (command : List String)
  | agentStop
deriving DecidableEq

/-- How a run ends: normal return, `print`+`sys.exit(2)` after a caught
`ScpError`, `parser.error` (usage message), or an uncaught exception. -/
inductive Outcome where
  | ok
  | exit2 (msg : String)
  | usageError (msg : String)
  | uncaught (e : PyErr)
deriving DecidableEq

/-- The `optparse` result record.  `limit` is `None` or an int; `recursive`
and `compression` are `None` or the stored boolean (`-r` stores `True`,
`-C` has `action='store_false'` and stores `False`). -/
structure Options where
  verbose : Bool
  push : Bool
  limit : Option Int
  recursive : Option Bool
  compression : Option Bool
deriving DecidableEq

/-- Defaults set by `optparse`: `verbose=False`, `push=True`, the rest
default to `None`. -/
def defaultOptions : Options :=
  { verbose := false, push := true, limit := none, recursive := none, compression := none }

/-- The value `optparse` leaves in `options.compression`: `-C` is declared
with `action='store_false'`, so passing the flag stores `False`; leaving it
out leaves the default `None`. -/
def compressionOptValue (cFlagPassed : Bool) : Option Bool :=
  if cFlagPassed then some false else none

/-- Python truthiness of an optional boolean option (`None` is falsy). -/
def optTruthy : Option Bool → Bool
  | some b => b
  | none => false

/-- Python truthiness of `options.limit` (`None` and `0` are falsy). -/
def limitTruthy : Option Int → Bool
  | some n => !(n == 0)
  | none => false

/-- A host argument after `main` filled in `name`, `path` and `config`. -/
structure HostSpec where
  name : String
  path : String
  config : Dict
deriving DecidableEq

/-- Outcomes of the external child processes of one run: the agent spawn
(`.error msg` when `run_command` raised `ScpError msg`, `.ok out` with the
announcement text otherwise), and for `ssh-add`, the outer `ssh`, and
`ssh-agent -k`, `some msg` when the process failed with `ScpError msg`. -/
structure Oracle where
  agentOutput : Except String String
  loadResult : Option String
  scpResult : Option String
  stopResult : Option String

/-! ### Script constants -/

/-- `SSH_PATH`. -/
def SSH_PATH : String := "/usr/bin/ssh"

/-- `SSH_CONFIG_FILE` (the expansion of `~/.ssh/config`; its concrete value
is environment-dependent and immaterial to the claims). -/
def SSH_CONFIG_FILE : String := "~/.ssh/config"

/-! ### Agent management -/

/-- Strip an exact prefix of characters, returning the remainder. -/
def dropExact : List Char → List Char → Option (List Char)
  | [], rest => some rest
  | _, [] => none
  | p :: ps, c :: cs => if p == c then dropExact ps cs else none

/-- Try the three key alternatives of the announcement pattern
`(SSH_AUTH_SOCK|SSH_AGENT_PID|SSH_PAGEANT_PID)=([^;]+);` at one position. -/
def matchKeyAt (cs : List Char) : Option (String × List Char) :=
  match dropExact "SSH_AUTH_SOCK".data cs with
  | some rest => some ("SSH_AUTH_SOCK", rest)
  | none =>
    match dropExact "SSH_AGENT_PID".data cs with
    | some rest => some ("SSH_AGENT_PID", rest)
    | none =>
      match dropExact "SSH_PAGEANT_PID".data cs with
      | some rest => some ("SSH_PAGEANT_PID", rest)
      | none => none

/-- Try to match the whole announcement pattern at one position: a key
alternative, `=`, a nonempty run of non-`;` characters, and `;`; returns
the two captured groups and the remainder after the match. -/
def tryMatchAgent (cs : List Char) : Option (String × String × List Char) :=
  match matchKeyAt cs with
  | none => none
  | some (k, rest) =>
    match rest with
    | '=' :: rest2 =>
      let val := rest2.takeWhile (fun c => !(c == ';'))
      let rest3 := rest2.dropWhile (fun c => !(c == ';'))
      if val.isEmpty then none
      else
        match rest3 with
        | ';' :: rest4 => some (k, String.mk val, rest4)
        | _ => none
    | _ => none

/-- `re.findall` of the announcement pattern: leftmost non-overlapping
matches, scanning resumes after each match.  Fuel exceeds the text length,
and every step consumes at least one character. -/
def findallGo : Nat → List Char → List (String × String)
  | 0, _ => []
  | _ + 1, [] => []
  | fuel + 1, c :: rest =>
    match tryMatchAgent (c :: rest) with
    | some (k, v, after) => (k, v) :: findallGo fuel after
    | none => findallGo fuel rest

/-- `re.findall(output_pattern, output, re.DOTALL)` of `ssh_agent_start`. -/
def agentFindall (out : String) : List (String × String) :=
  findallGo (out.data.length + 1) out.data

/-- Python `v.strip("'")`: drop every leading and trailing apostrophe. -/
def stripQuotes (s : String) : String :=
  String.mk (((s.data.dropWhile (fun c => c == '\'')).reverse.dropWhile
    (fun c => c == '\'')).reverse)

/-- `dict((k, v.strip("'")) for (k, v) in m)`. -/
def agentDict (pairs : List (String × String)) : Dict :=
  pairs.foldl (fun acc kv => acc.update1 kv.1 (stripQuotes kv.2)) []

/-- `ssh_agent_start`, given the announcement text the spawned agent wrote
to stdout.  When `re.findall` finds no pair, `ScpError('Cannot determine
agent data…')` is raised; otherwise the debug call
`debug('Agent sock: %s' % agent['SSH_AUTH_SOCK'])` evaluates its argument
eagerly (string formatting happens before the call, whether or not verbose
mode is on), so a dictionary without `SSH_AUTH_SOCK` raises `KeyError`. -/
def ssh_agent_start (output : String) : Except PyErr Dict :=
  match agentFindall output with
  | [] => .error (.scpError ("Cannot determine agent data from output: " ++ output))
  | m@(_ :: _) =>
    let agent := agentDict m
    match agent.get? "SSH_AUTH_SOCK" with
    | none => .error (.keyError "SSH_AUTH_SOCK")
    | some _ => .ok agent

/-- `get_ssh_agent_pid`: the ordinary key, else the pageant variant, else
`None`. -/
def get_ssh_agent_pid (agent : Dict) : Option String :=
  match agent.get? "SSH_AGENT_PID" with
  | some v => some v
  | none => agent.get? "SSH_PAGEANT_PID"

/-- `get_ssh_agent`: `{'SSH_AUTH_SOCK': os.environ.get('SSH_AUTH_SOCK')}`
when the variable is inherited, else `None`. -/
def get_ssh_agent (environ : Dict) : Option Dict :=
  if environ.hasKey "SSH_AUTH_SOCK" then
    some [("SSH_AUTH_SOCK", (environ.get? "SSH_AUTH_SOCK").getD "")]
  else none

/-- `get_ssh_agent_env`: `env = os.environ; env.update(agent); return env`.
The function returns `os.environ` itself after mutating it in place, so the
first component (the returned child environment) and the second (the new
process-global environment) are the same dictionary. -/
def get_ssh_agent_env (environ agent : Dict) : Dict × Dict :=
  let env := environ.updateAll agent
  (env, env)

/-! ### Transfer orchestration -/

/-- The identity files collected from the two resolved configs. -/
def identityFiles (c1 c2 : Dict) : List String :=
  (match c1.get? "identityfile" with | some f => [f] | none => []) ++
    (match c2.get? "identityfile" with | some f => [f] | none => [])

/-- `ssh_agent_load_keys`: a no-op when the file list is empty (the early
return precedes the environment build); otherwise the child environment is
built (mutating `os.environ`) and `ssh-add` runs.  Returns the raised
error (if any), the emitted events, and the new `os.environ`. -/
def loadKeysStep (agent : Dict) (files : List String) (environ : Dict)
    (oracle : Oracle) : Option PyErr × List Event × Dict :=
  match files with
  | [] => (none, [], environ)
  | _ :: _ =>
    let environ2 := (get_ssh_agent_env environ agent).2
    match oracle.loadResult with
    | some msg => (some (.scpError msg), [.loadKeys files], environ2)
    | none => (none, [.loadKeys files], environ2)

/-- The connect host, remote host, synthesized source and target of `scp`
(the `if options.push: … else: …` block).  `'%s:%s' % (…['hostname'], …)`
raises `KeyError` when the resolved config lacks `hostname`; the pull
target is `host2['path'] if host2['path'] else '~'`. -/
def scpEndpoints (host1 host2 : HostSpec) (push : Bool) :
    Except PyErr (HostSpec × HostSpec × String × String) :=
  if push then
    match host2.config.get? "hostname" with
    | some hn => .ok (host1, host2, host1.path, hn ++ ":" ++ host2.path)
    | none => .error (.keyError "hostname")
  else
    match host1.config.get? "hostname" with
    | some hn =>
      .ok (host2, host1, hn ++ ":" ++ host1.path,
        if host2.path = "" then "~" else host2.path)
    | none => .error (.keyError "hostname")

/-- The argv of the outer `ssh` invocation, assembled in source order:
`[SSH_PATH, '-A', '-t']`, optional `-v`, `[connect, 'scp', '-p']`, optional
`-v`, optional `['-l', str(limit)]`, optional `-r`, optional `-C`, one
`-o<option>=<value>` per remote-config entry excluding `identityfile` and
`hostname`, then source and target. -/
def scpAssemble (connect remote : HostSpec) (source target : String)
    (opts : Options) : List String :=
  [SSH_PATH, "-A", "-t"]
    ++ (if opts.verbose then ["-v"] else [])
    ++ [connect.name, "scp", "-p"]
    ++ (if opts.verbose then ["-v"] else [])
    ++ (match opts.limit with
        | some n => if !(n == 0) then ["-l", toString n] else []
        | none => [])
    ++ (if optTruthy opts.recursive then ["-r"] else [])
    ++ (if optTruthy opts.compression then ["-C"] else [])
    ++ (remote.config.filter
          (fun kv => !(kv.1 == "identityfile" || kv.1 == "hostname"))).map
        (fun kv => "-o" ++ kv.1 ++ "=" ++ kv.2)
    ++ [source, target]

/-- The full command `scp` builds (endpoint synthesis then assembly). -/
def scpCommand (host1 host2 : HostSpec) (opts : Options) :
    Except PyErr (List String) :=
  match scpEndpoints host1 host2 opts.push with
  | .error e => .error e
  | .ok (c, r, s, t) => .ok (scpAssemble c r s t opts)

/-- The `scp` step of `main_transfer`: the command is built first (a
missing `hostname` raises `KeyError` before anything runs), then the child
environment is built (mutating `os.environ`) and the command runs. -/
def scpStep (agent : Dict) (host1 host2 : HostSpec) (opts : Options)
    (environ : Dict) (oracle : Oracle) : Option PyErr × List Event × Dict :=
  match scpCommand host1 host2 opts with
  | .error e => (some e, [], environ)
  | .ok cmd =>
    let environ2 := (get_ssh_agent_env environ agent).2
    match oracle.scpResult with
    | some msg => (some (.scpError msg), [.runScp cmd], environ2)
    | none => (none, [.runScp cmd], environ2)

/-- `ssh_agent_stop`: build the child environment (mutating `os.environ`)
and run `ssh-agent -k`. -/
def stopStep (agent : Dict) (environ : Dict) (oracle : Oracle) :
    Option PyErr × List Event × Dict :=
  let environ2 := (get_ssh_agent_env environ agent).2
  ((oracle.stopResult.map .scpError), [.agentStop], environ2)

/-- The `try` body of `main_transfer`: load the identity keys, then run the
transfer; the first raised error aborts the rest of the body. -/
def tryBody (agent : Dict) (host1 host2 : HostSpec) (opts : Options)
    (environ : Dict) (oracle : Oracle) : Option PyErr × List Event × Dict :=
  let l := loadKeysStep agent (identityFiles host1.config host2.config) environ oracle
  match l.1 with
  | some e => (some e, l.2.1, l.2.2)
  | none =>
    let s := scpStep agent host1 host2 opts l.2.2 oracle
    (s.1, l.2.1 ++ s.2.1, s.2.2)

/-- `try: … finally: if agent_started: ssh_agent_stop(agent)`.  The stop
step runs exactly when the session is owned; per Python semantics an error
raised inside `finally` replaces the body's pending error. -/
def tryFinallyStop (owned : Bool) (body : Option PyErr × List Event × Dict)
    (agent : Dict) (oracle : Oracle) : Option PyErr × List Event × Dict :=
  if owned then
    ((match (stopStep agent body.2.2 oracle).1 with
      | some e => some e
      | none => body.1),
      body.2.1 ++ (stopStep agent body.2.2 oracle).2.1,
      (stopStep agent body.2.2 oracle).2.2)
  else body

/-- The error message of the unknown-host abort. -/
def unknownHostMsg (name : String) : String :=
  "Unknown host \"" ++ name ++ "\".\n" ++
    "Please add it to the SSH config file: " ++ SSH_CONFIG_FILE

/-- `list_known_hosts`: the non-wildcard patterns of the rule list (the
display itself — columnizing to the terminal width — is external). -/
def knownHosts (config : SSHConfig) : List String :=
  (config.filter (fun e => !((e.get? "host").getD "" == "*"))).map
    (fun e => (e.get? "host").getD "")

/-- `except ScpError` at the end of `main_transfer` prints the message and
exits with status 2; any other exception escapes uncaught. -/
def outcomeOf : Option PyErr → Outcome
  | none => .ok
  | some (.scpError msg) => .exit2 msg
  | some (.keyError k) => .uncaught (.keyError k)

/-- The body after a session exists (inner `try`/`finally`). -/
def afterSession (agent : Dict) (owned : Bool) (host1 host2 : HostSpec)
    (opts : Options) (environ : Dict) (oracle : Oracle) :
    Option PyErr × List Event × Dict :=
  tryFinallyStop owned (tryBody agent host1 host2 opts environ oracle) agent oracle

/-- `main_transfer`: read the config, resolve both hosts, abort (listing
the known hosts) when a resolved config is empty, otherwise detect or
start the agent, load keys and transfer under `try`/`finally`.  Arguments
`h1`, `h2` are the `(name, path)` pairs `main` parsed; the result is the
outcome, the event trace, and the final `os.environ`. -/
def main_transfer (cfg : SSHConfig) (h1 h2 : String × String) (opts : Options)
    (environ : Dict) (oracle : Oracle) : Outcome × List Event × Dict :=
  if lookup cfg h1.1 = [] then
    (.exit2 (unknownHostMsg h1.1), [.readConfig, .listKnownHosts (knownHosts cfg)], environ)
  else if lookup cfg h2.1 = [] then
    (.exit2 (unknownHostMsg h2.1), [.readConfig, .listKnownHosts (knownHosts cfg)], environ)
  else
    match get_ssh_agent environ with
    | some agent =>
      (outcomeOf (afterSession agent false ⟨h1.1, h1.2, lookup cfg h1.1⟩
          ⟨h2.1, h2.2, lookup cfg h2.1⟩ opts environ oracle).1,
        .readConfig :: (afterSession agent false ⟨h1.1, h1.2, lookup cfg h1.1⟩
          ⟨h2.1, h2.2, lookup cfg h2.1⟩ opts environ oracle).2.1,
        (afterSession agent false ⟨h1.1, h1.2, lookup cfg h1.1⟩
          ⟨h2.1, h2.2, lookup cfg h2.1⟩ opts environ oracle).2.2)
    | none =>
      match oracle.agentOutput with
      | .error msg => (.exit2 msg, [.readConfig, .agentStart], environ)
      | .ok out =>
        match ssh_agent_start out with
        | .error (.scpError msg) => (.exit2 msg, [.readConfig, .agentStart], environ)
        | .error (.keyError k) => (.uncaught (.keyError k), [.readConfig, .agentStart], environ)
        | .ok agent =>
          (outcomeOf (afterSession agent true ⟨h1.1, h1.2, lookup cfg h1.1⟩
              ⟨h2.1, h2.2, lookup cfg h2.1⟩ opts environ oracle).1,
            .readConfig :: .agentStart :: (afterSession agent true ⟨h1.1, h1.2, lookup cfg h1.1⟩
              ⟨h2.1, h2.2, lookup cfg h2.1⟩ opts environ oracle).2.1,
            (afterSession agent true ⟨h1.1, h1.2, lookup cfg h1.1⟩
              ⟨h2.1, h2.2, lookup cfg h2.1⟩ opts environ oracle).2.2)

/-! ### `main`: argument handling -/

/-- Python `s.split(c)` for a one-character separator (`''.split(':')` is
`['']`, a trailing separator yields a trailing empty field). -/
def splitOnChar (c : Char) : List Char → List (List Char)
  | [] => [[]]
  | x :: xs =>
    let r := splitOnChar c xs
    if x = c then [] :: r
    else
      match r with
      | [] => [[x]]
      | h :: t => (x :: h) :: t

/-- `host['name'], host['path'] = arg.split(':')`: succeeds exactly when
the split has two fields; otherwise `ValueError` is caught and turned into
the usage error. -/
def parseHostArg (s : String) : Option (String × String) :=
  match splitOnChar ':' s.data with
  | [n, p] => some (String.mk n, String.mk p)
  | _ => none

/-- The usage message for malformed positional arguments. -/
def hostFormMsg : String := "host arguments must be in the form \"hostname:path\""

/-- `main` after option parsing: exactly two positional arguments are
required, each of the form `name:path`; both checks precede
`main_transfer` (and hence any configuration read). -/
def mainRun (args : List String) (opts : Options) (cfg : SSHConfig)
    (environ : Dict) (oracle : Oracle) : Outcome × List Event × Dict :=
  match args with
  | [a1, a2] =>
    (match parseHostArg a1, parseHostArg a2 with
     | some h1, some h2 => main_transfer cfg h1 h2 opts environ oracle
     | _, _ => (.usageError hostFormMsg, [], environ))
  | _ => (.usageError "please specify exactly two hosts", [], environ)

/-! ### Helper predicates for the theorems -/

/-- Recognizer of the remote-copy `-o…` per-option overrides. -/
def isDashO (s : String) : Bool :=
  match s.data with
  | c1 :: c2 :: _ => c1 == '-' && c2 == 'o'
  | _ => false

/-- Count of agent-stop events in a trace. -/
def isStopEvent : Event → Bool
  | .agentStop => true
  | _ => false

/-- Number of `ssh-agent -k` invocations a trace records. -/
def countStops (tr : List Event) : Nat :=
  tr.countP isStopEvent

/-- A session was successfully obtained: either an auth socket was
inherited, or the spawn succeeded and its announcement parsed. -/
def sessionObtained (environ : Dict) (oracle : Oracle) : Prop :=
  environ.hasKey "SSH_AUTH_SOCK" = true ∨
    (∃ out, oracle.agentOutput = .ok out ∧ ∃ agent, ssh_agent_start out = .ok agent)

/-! ### Concrete inputs used by counterexamples and witnesses -/

/-- A config whose wildcard rule carries an option (`Host *` / `port 22`)
and which defines host `h` with `port 2222`. -/
def exCfg : SSHConfig :=
  [[("host", "*"), ("port", "22")], [("host", "h"), ("port", "2222")]]

/-- A config holding only the default wildcard rule, with no options. -/
def bareCfg : SSHConfig := [[("host", "*")]]

/-- A successful-run oracle with a well-formed agent announcement. -/
def okOracle : Oracle :=
  { agentOutput := .ok "SSH_AUTH_SOCK=/tmp/agent.1; SSH_AGENT_PID=99;",
    loadResult := none, scpResult := none, stopResult := none }

/-- Example hosts with resolved configs, used by concrete evaluations. -/
def exH1 : HostSpec := ⟨"h1", "/a", [("hostname", "h1.example.org"), ("user", "alice")]⟩

/-- Second example host. -/
def exH2 : HostSpec := ⟨"h2", "/b", [("hostname", "h2.example.org"), ("user", "bob")]⟩

/-- Connect host for the override-filter witness (config unused there). -/
def cW : HostSpec := ⟨"c1", "/p", []⟩

/-- Remote host for the override-filter witness. -/
def rW : HostSpec :=
  ⟨"r1", "/q",
    [("hostname", "r.example.org"), ("port", "2222"),
      ("identityfile", "/id"), ("user", "bob")]⟩

/-- Host with an empty destination path for the push-target witness. -/
def h2Empty : HostSpec := ⟨"h2", "", [("hostname", "h2.example.org")]⟩

/-- Example process environment for the in-place–update witness. -/
def envW : Dict := [("PATH", "/bin"), ("SSH_AUTH_SOCK", "/old")]

/-- Example agent dictionary for the in-place–update witness. -/
def agentW : Dict := [("SSH_AUTH_SOCK", "/new"), ("SSH_AGENT_PID", "7")]

/-! ## Lemmas about the dictionary model -/

theorem Dict.get?_update1_self (d : Dict) (k v : String) :
    (d.update1 k v).get? k = some v := by
  induction d with
  | nil => simp [Dict.update1, Dict.get?]
  | cons kv rest ih =>
    obtain ⟨k1, v1⟩ := kv
    by_cases h : k1 = k
    · simp [Dict.update1, h, Dict.get?]
    · simp [Dict.update1, h, Dict.get?, ih]

theorem Dict.get?_update1_ne (d : Dict) (k v k' : String) (h : k' ≠ k) :
    (d.update1 k v).get? k' = d.get? k' := by
  induction d with
  | nil =>
    have hne : ¬ k = k' := fun hh => h hh.symm
    simp [Dict.update1, Dict.get?, hne]
  | cons kv rest ih =>
    obtain ⟨k1, v1⟩ := kv
    by_cases h1 : k1 = k
    · subst h1
      have hne : ¬ k1 = k' := fun hh => h hh.symm
      simp [Dict.update1, Dict.get?, hne]
    · simp [Dict.update1, h1, Dict.get?, ih]

theorem Dict.keys_cons (k v : String) (d : Dict) :
    Dict.keys ((k, v) :: d) = k :: d.keys := rfl

theorem Dict.get?_eq_none (d : Dict) (k : String) :
    d.get? k = none ↔ k ∉ d.keys := by
  induction d with
  | nil => simp [Dict.get?, Dict.keys]
  | cons kv rest ih =>
    obtain ⟨k1, v1⟩ := kv
    by_cases h : k1 = k
    · subst h
      simp [Dict.get?, Dict.keys_cons]
    · have hne : ¬ k = k1 := fun hh => h hh.symm
      simp [Dict.get?, h, Dict.keys_cons, ih, hne]

theorem Dict.keys_update1 (d : Dict) (k v : String) :
    (d.update1 k v).keys = if k ∈ d.keys then d.keys else d.keys ++ [k] := by
  induction d with
  | nil => simp [Dict.update1, Dict.keys]
  | cons kv rest ih =>
    obtain ⟨k1, v1⟩ := kv
    by_cases h : k1 = k
    · subst h
      simp [Dict.update1, Dict.keys_cons]
    · have hne : ¬ k = k1 := fun hh => h hh.symm
      by_cases hm : k ∈ Dict.keys rest
      · simp [Dict.update1, h, Dict.keys_cons, hm, ih, hne]
      · simp [Dict.update1, h, Dict.keys_cons, hm, ih, hne]

theorem Dict.keys_nodup_update1 (d : Dict) (k v : String) (h : d.keys.Nodup) :
    (d.update1 k v).keys.Nodup := by
  rw [Dict.keys_update1]
  by_cases hm : k ∈ d.keys
  · simp [hm, h]
  · simp [hm, List.nodup_append, h, List.disjoint_singleton]

theorem Dict.updateAll_nil (d : Dict) : d.updateAll [] = d := rfl

theorem Dict.updateAll_cons (d : Dict) (k v : String) (rest : Dict) :
    d.updateAll ((k, v) :: rest) = (d.update1 k v).updateAll rest := rfl

theorem Dict.get?_updateAll_not_mem (a d : Dict) (k : String) (h : k ∉ a.keys) :
    (d.updateAll a).get? k = d.get? k := by
  induction a generalizing d with
  | nil => rfl
  | cons kv rest ih =>
    obtain ⟨k1, v1⟩ := kv
    rw [Dict.keys_cons] at h
    simp only [List.mem_cons, not_or] at h
    rw [Dict.updateAll_cons, ih _ h.2, Dict.get?_update1_ne _ _ _ _ h.1]

theorem Dict.get?_updateAll_mem (a d : Dict) (k v : String)
    (hnd : a.keys.Nodup) (h : a.get? k = some v) :
    (d.updateAll a).get? k = some v := by
  induction a generalizing d with
  | nil => simp [Dict.get?] at h
  | cons kv rest ih =>
    obtain ⟨k1, v1⟩ := kv
    rw [Dict.keys_cons, List.nodup_cons] at hnd
    rw [Dict.updateAll_cons]
    by_cases hk : k1 = k
    · subst hk
      have h1 : v1 = v := by simpa [Dict.get?] using h
      rw [Dict.get?_updateAll_not_mem _ _ _ hnd.1, Dict.get?_update1_self, h1]
    · have h2 : Dict.get? rest k = some v := by simpa [Dict.get?, hk] using h
      exact ih (d := d.update1 k1 v1) hnd.2 h2

theorem Dict.get?_updateAll (a d : Dict) (k : String) (hnd : a.keys.Nodup) :
    (d.updateAll a).get? k = orElseO (a.get? k) (d.get? k) := by
  cases hc : a.get? k with
  | none =>
    rw [Dict.get?_updateAll_not_mem _ _ _ ((Dict.get?_eq_none a k).mp hc)]
    rfl
  | some v =>
    rw [Dict.get?_updateAll_mem _ _ _ _ hnd hc]
    rfl

theorem Dict.keys_nodup_updateAll (a d : Dict) (h : d.keys.Nodup) :
    (d.updateAll a).keys.Nodup := by
  induction a generalizing d with
  | nil => exact h
  | cons kv rest ih =>
    obtain ⟨k1, v1⟩ := kv
    rw [Dict.updateAll_cons]
    exact ih _ (Dict.keys_nodup_update1 _ _ _ h)

theorem Dict.get?_delete1_ne (d : Dict) (x k : String) (h : k ≠ x) :
    (d.delete1 x).get? k = d.get? k := by
  induction d with
  | nil => rfl
  | cons kv rest ih =>
    obtain ⟨k1, v1⟩ := kv
    by_cases h1 : k1 = x
    · subst h1
      have hne : ¬ k1 = k := fun hh => h hh.symm
      simp [Dict.delete1, Dict.get?, hne]
    · simp [Dict.delete1, h1, Dict.get?, ih]

theorem Dict.get?_delete1_self (d : Dict) (k : String) (h : d.keys.Nodup) :
    (d.delete1 k).get? k = none := by
  induction d with
  | nil => rfl
  | cons kv rest ih =>
    obtain ⟨k1, v1⟩ := kv
    rw [Dict.keys_cons, List.nodup_cons] at h
    by_cases h1 : k1 = k
    · subst h1
      simp only [Dict.delete1, if_pos rfl]
      exact (Dict.get?_eq_none rest k1).mpr h.1
    · simp [Dict.delete1, h1, Dict.get?, ih h.2]

theorem orElseO_none_right (a : Option String) : orElseO a none = a := by
  cases a <;> rfl

theorem orElseO_assoc (a b c : Option String) :
    orElseO (orElseO a b) c = orElseO a (orElseO b c) := by
  cases a <;> rfl

theorem findSome?_append_or {α : Type} (l1 l2 : List α) (f : α → Option String) :
    (l1 ++ l2).findSome? f = orElseO (l1.findSome? f) (l2.findSome? f) := by
  induction l1 with
  | nil => simp [orElseO]
  | cons a l ih =>
    cases hfa : f a <;> simp [List.findSome?_cons, hfa, orElseO, ih]

theorem foldl_updateAll_get? (ms : List Dict) (acc : Dict) (k : String)
    (h : ∀ m ∈ ms, m.keys.Nodup) :
    (ms.foldl Dict.updateAll acc).get? k =
      orElseO (ms.reverse.findSome? (fun m => m.get? k)) (acc.get? k) := by
  induction ms generalizing acc with
  | nil => simp [orElseO]
  | cons m rest ih =>
    have hm : m.keys.Nodup := h m (by simp)
    have hrest : ∀ x ∈ rest, x.keys.Nodup := fun x hx => h x (by simp [hx])
    rw [List.foldl_cons, ih _ hrest, List.reverse_cons, findSome?_append_or]
    have hsing : ([m].findSome? (fun m => m.get? k)) = m.get? k := by
      cases hmk : m.get? k <;> simp [List.findSome?_cons, hmk]
    rw [hsing, Dict.get?_updateAll _ _ _ hm, orElseO_assoc]

theorem foldl_updateAll_keys_nodup (ms : List Dict) (acc : Dict)
    (h : acc.keys.Nodup) : (ms.foldl Dict.updateAll acc).keys.Nodup := by
  induction ms generalizing acc with
  | nil => exact h
  | cons m rest ih => exact ih _ (Dict.keys_nodup_updateAll _ _ h)

theorem mem_insertByLen {x r : Dict} {l : List Dict} :
    x ∈ insertByLen r l ↔ x = r ∨ x ∈ l := by
  induction l with
  | nil => simp [insertByLen]
  | cons y ys ih =>
    by_cases h : patLen y < patLen r
    · simp only [insertByLen, if_pos h, List.mem_cons, ih]
      exact or_left_comm
    · simp [insertByLen, h]

theorem mem_sortByLen {x : Dict} {l : List Dict} :
    x ∈ sortByLen l ↔ x ∈ l := by
  induction l with
  | nil => simp [sortByLen]
  | cons y ys ih => simp [sortByLen, mem_insertByLen, ih]

/-! ## Trace-counting lemmas -/

theorem countStops_nil : countStops [] = 0 := rfl

theorem countStops_append (a b : List Event) :
    countStops (a ++ b) = countStops a + countStops b :=
  List.countP_append _ _ _

theorem countStops_cons (e : Event) (tr : List Event) :
    countStops (e :: tr) = countStops tr + (if isStopEvent e = true then 1 else 0) :=
  List.countP_cons _ _ _

theorem countStops_loadKeysStep (agent : Dict) (files : List String)
    (environ : Dict) (oracle : Oracle) :
    countStops (loadKeysStep agent files environ oracle).2.1 = 0 := by
  unfold loadKeysStep
  cases files with
  | nil => rfl
  | cons f fs =>
    cases oracle.loadResult <;>
      simp [countStops, List.countP_cons, isStopEvent]

theorem countStops_scpStep (agent : Dict) (host1 host2 : HostSpec)
    (opts : Options) (environ : Dict) (oracle : Oracle) :
    countStops (scpStep agent host1 host2 opts environ oracle).2.1 = 0 := by
  unfold scpStep
  cases scpCommand host1 host2 opts with
  | error e => rfl
  | ok cmd =>
    cases oracle.scpResult <;>
      simp [countStops, List.countP_cons, isStopEvent]

theorem countStops_tryBody (agent : Dict) (host1 host2 : HostSpec)
    (opts : Options) (environ : Dict) (oracle : Oracle) :
    countStops (tryBody agent host1 host2 opts environ oracle).2.1 = 0 := by
  simp only [tryBody]
  split
  · exact countStops_loadKeysStep agent _ environ oracle
  · rw [countStops_append, countStops_loadKeysStep, countStops_scpStep]

theorem trace_stopStep (agent : Dict) (environ : Dict) (oracle : Oracle) :
    (stopStep agent environ oracle).2.1 = [Event.agentStop] := rfl

theorem countStops_afterSession (agent : Dict) (owned : Bool) (host1 host2 : HostSpec)
    (opts : Options) (environ : Dict) (oracle : Oracle) :
    countStops (afterSession agent owned host1 host2 opts environ oracle).2.1 =
      if owned then 1 else 0 := by
  unfold afterSession tryFinallyStop
  cases owned
  · simp only [Bool.false_eq_true, if_false]
    exact countStops_tryBody agent host1 host2 opts environ oracle
  · have ht : (true = true) := rfl
    rw [if_pos ht, trace_stopStep, countStops_append, countStops_tryBody]
    rfl

/-! ## Lemmas about `main`'s argument splitting -/

theorem splitOnChar_length (c : Char) (xs : List Char) :
    (splitOnChar c xs).length = xs.count c + 1 := by
  induction xs with
  | nil => simp [splitOnChar]
  | cons x xs ih =>
    by_cases h : x = c
    · simp [splitOnChar, h, List.count_cons, ih]
    · have hne : (x == c) = false := by simp [h]
      cases hr : splitOnChar c xs with
      | nil => rw [hr] at ih; simp at ih
      | cons hd t =>
        rw [hr] at ih
        simp only [List.length_cons] at ih
        simp [splitOnChar, h, hr, List.count_cons, hne]
        omega

theorem parseHostArg_isSome (s : String) :
    (parseHostArg s).isSome = true ↔ s.data.count ':' = 1 := by
  unfold parseHostArg
  have h := splitOnChar_length ':' s.data
  cases hr : splitOnChar ':' s.data with
  | nil => rw [hr] at h; simp at h
  | cons a t =>
    cases t with
    | nil =>
      rw [hr] at h
      simp only [List.length_cons, List.length_nil] at h
      simp
      omega
    | cons b t2 =>
      cases t2 with
      | nil =>
        rw [hr] at h
        simp only [List.length_cons, List.length_nil] at h
        simp
        omega
      | cons e t3 =>
        rw [hr] at h
        simp only [List.length_cons] at h
        simp
        omega

theorem splitOnChar_append_sep (c : Char) (xs : List Char) (h : c ∉ xs) :
    splitOnChar c (xs ++ [c]) = [xs, []] := by
  induction xs with
  | nil => simp [splitOnChar]
  | cons x xs ih =>
    have hx : ¬ x = c := fun hh => h (hh ▸ List.mem_cons_self _ _)
    have h2 : c ∉ xs := fun hm => h (List.mem_cons_of_mem _ hm)
    simp [splitOnChar, hx, ih h2]

/-! ## String helper lemmas -/

theorem isDashO_fmt (k v : String) : isDashO ("-o" ++ k ++ "=" ++ v) = true := by
  have hdata : ("-o" ++ k ++ "=" ++ v).data = '-' :: 'o' :: (k.data ++ '=' :: v.data) := by
    simp [String.data_append]
  simp [isDashO, hdata]

theorem filter_isDashO_nil (ss : List String) (h : ∀ x ∈ ss, isDashO x = false) :
    ss.filter isDashO = [] := by
  induction ss with
  | nil => rfl
  | cons x xs ih =>
    rw [List.filter_cons, if_neg (by simp [h x (by simp)])]
    exact ih (fun y hy => h y (by simp [hy]))

theorem filter_isDashO_overrides (l : List (String × String)) :
    (l.map (fun kv => "-o" ++ kv.1 ++ "=" ++ kv.2)).filter isDashO =
      l.map (fun kv => "-o" ++ kv.1 ++ "=" ++ kv.2) := by
  induction l with
  | nil => rfl
  | cons kv rest ih => simp [List.filter_cons, isDashO_fmt, ih]

theorem append_sep_inj (xs : List Char) :
    ∀ (ys u v : List Char), '=' ∉ xs → '=' ∉ ys →
      xs ++ '=' :: u = ys ++ '=' :: v → xs = ys ∧ u = v := by
  induction xs with
  | nil =>
    intro ys u v _ hy h
    cases ys with
    | nil => simpa using h
    | cons y ys2 =>
      simp only [List.nil_append, List.cons_append, List.cons.injEq] at h
      exact absurd (h.1 ▸ List.mem_cons_self _ _) hy
  | cons x xs2 ih =>
    intro ys u v hx hy h
    cases ys with
    | nil =>
      simp only [List.nil_append, List.cons_append, List.cons.injEq] at h
      exact absurd (h.1.symm ▸ List.mem_cons_self _ _) hx
    | cons y ys2 =>
      simp only [List.cons_append, List.cons.injEq] at h
      have hx2 : '=' ∉ xs2 := fun hm => hx (List.mem_cons_of_mem _ hm)
      have hy2 : '=' ∉ ys2 := fun hm => hy (List.mem_cons_of_mem _ hm)
      obtain ⟨h1, h2⟩ := ih ys2 u v hx2 hy2 h.2
      exact ⟨by rw [h.1, h1], h2⟩

theorem fmt_key_inj (k1 v1 k2 v2 : String) (h1 : '=' ∉ k1.data) (h2 : '=' ∉ k2.data)
    (h : "-o" ++ k1 ++ "=" ++ v1 = "-o" ++ k2 ++ "=" ++ v2) : k1 = k2 := by
  have hdata := congrArg String.data h
  simp only [String.data_append, List.append_assoc, List.cons_append,
    List.nil_append, List.singleton_append, List.cons.injEq, true_and] at hdata
  exact String.ext (append_sep_inj k1.data k2.data v1.data v2.data h1 h2 hdata).1

/-! ## Claim theorems -/

/-- C5: for every hostname, `lookup` returns exactly the merge of all rules
whose pattern glob-matches it, merged in ascending pattern-length order
(ties stable in parse order) with later entries overwriting earlier keys,
and with the pattern/host key removed; in particular a wildcard `port=22`
overridden by a matching host rule `port=2222` yields port `"2222"`. -/
theorem scp_r2r_C5 (config : SSHConfig) (hostname : String)
    (hnd : ∀ r ∈ config, (Dict.keys r).Nodup) :
    (∀ k, k ≠ "host" →
      Dict.get? (lookup config hostname) k = lookupSpecValue config hostname k) ∧
    Dict.get? (lookup config hostname) "host" = none ∧
    Dict.get? (lookup exCfg "h") "port" = some "2222" := by
  have hsorted : ∀ m ∈ sortByLen (matchingRules config hostname), (Dict.keys m).Nodup := by
    intro m hm
    exact hnd m (List.mem_filter.mp (mem_sortByLen.mp hm)).1
  refine ⟨?_, ?_, by decide⟩
  · intro k hk
    unfold lookup lookupSpecValue
    rw [Dict.get?_delete1_ne _ _ _ hk, foldl_updateAll_get? _ _ _ hsorted]
    rw [show Dict.get? [] k = none from rfl, orElseO_none_right]
  · unfold lookup
    exact Dict.get?_delete1_self _ _
      (foldl_updateAll_keys_nodup _ _ (by simp [Dict.keys]))

/-- Witness for C5 at the concrete config of the claim's example. -/
theorem scp_r2r_C5_witness :
    Dict.get? (lookup exCfg "h") "host" = none ∧
    Dict.get? (lookup exCfg "h") "port" = some "2222" :=
  ⟨(scp_r2r_C5 exCfg "h" (by decide)).2.1, (scp_r2r_C5 exCfg "h" (by decide)).2.2⟩

/-- C8: `get_ssh_agent_env` mutates the process-global environment in place
and returns that very object: the returned child environment equals the new
global environment, which is the old one updated with the agent's
variables; agent values win on key conflict, other keys are untouched, and
the teardown step's resulting global environment shows the same mutation. -/
theorem scp_r2r_C8 (environ agent : Dict) (hnd : (Dict.keys agent).Nodup) :
    (get_ssh_agent_env environ agent).1 = (get_ssh_agent_env environ agent).2 ∧
    (get_ssh_agent_env environ agent).2 = Dict.updateAll environ agent ∧
    (∀ k v, Dict.get? agent k = some v →
      Dict.get? (get_ssh_agent_env environ agent).2 k = some v) ∧
    (∀ k, Dict.get? agent k = none →
      Dict.get? (get_ssh_agent_env environ agent).2 k = Dict.get? environ k) ∧
    (∀ oracle : Oracle, (stopStep agent environ oracle).2.2 = Dict.updateAll environ agent) := by
  refine ⟨rfl, rfl, ?_, ?_, fun _ => rfl⟩
  · intro k v h
    exact Dict.get?_updateAll_mem agent environ k v hnd h
  · intro k h
    exact Dict.get?_updateAll_not_mem agent environ k ((Dict.get?_eq_none agent k).mp h)

/-- Witness for C8 at a concrete environment and agent dictionary. -/
theorem scp_r2r_C8_witness :
    (get_ssh_agent_env envW agentW).1 = (get_ssh_agent_env envW agentW).2 ∧
    (get_ssh_agent_env envW agentW).2 = Dict.updateAll envW agentW :=
  ⟨(scp_r2r_C8 envW agentW (by decide)).1, (scp_r2r_C8 envW agentW (by decide)).2.1⟩

/-- C4: the session is owned exactly when no inherited `SSH_AUTH_SOCK`
existed when `get_ssh_agent` ran, and on every exit path of a run whose
hosts resolve and whose session was obtained — key-loading failure,
transfer failure (including the hostname `KeyError`), and teardown failure
included — the agent-stop step runs exactly once when owned and never when
not owned. -/
theorem scp_r2r_C4 (cfg : SSHConfig) (n1 p1 n2 p2 : String) (opts : Options)
    (environ : Dict) (oracle : Oracle)
    (hk1 : lookup cfg n1 ≠ []) (hk2 : lookup cfg n2 ≠ [])
    (hsess : sessionObtained environ oracle) :
    ((get_ssh_agent environ = none) ↔ Dict.hasKey environ "SSH_AUTH_SOCK" = false) ∧
    countStops (main_transfer cfg (n1, p1) (n2, p2) opts environ oracle).2.1 =
      (if Dict.hasKey environ "SSH_AUTH_SOCK" then 0 else 1) := by
  constructor
  · unfold get_ssh_agent
    cases hkey : Dict.hasKey environ "SSH_AUTH_SOCK" <;> simp [hkey]
  · unfold main_transfer
    rw [if_neg hk1, if_neg hk2]
    cases hkey : Dict.hasKey environ "SSH_AUTH_SOCK"
    · have hga : get_ssh_agent environ = none := by simp [get_ssh_agent, hkey]
      rcases hsess with h | ⟨out, hout, agent, hstart⟩
      · rw [hkey] at h
        exact absurd h (by simp)
      · simp only [hga, hout, hstart]
        rw [countStops_cons, countStops_cons, countStops_afterSession]
        simp [isStopEvent]
    · have hga : get_ssh_agent environ =
          some [("SSH_AUTH_SOCK", (Dict.get? environ "SSH_AUTH_SOCK").getD "")] := by
        simp [get_ssh_agent, hkey]
      simp only [hga]
      rw [countStops_cons, countStops_afterSession]
      simp [isStopEvent]

/-- Witness for C4: a run with an inherited auth socket never stops the
agent. -/
theorem scp_r2r_C4_witness :
    ((get_ssh_agent [("SSH_AUTH_SOCK", "/tmp/s")] = none) ↔
      Dict.hasKey [("SSH_AUTH_SOCK", "/tmp/s")] "SSH_AUTH_SOCK" = false) ∧
    countStops (main_transfer exCfg ("h", "/a") ("h", "/b") defaultOptions
        [("SSH_AUTH_SOCK", "/tmp/s")] okOracle).2.1 =
      (if Dict.hasKey [("SSH_AUTH_SOCK", "/tmp/s")] "SSH_AUTH_SOCK" then 0 else 1) :=
  scp_r2r_C4 exCfg "h" "/a" "h" "/b" defaultOptions [("SSH_AUTH_SOCK", "/tmp/s")]
    okOracle (by decide) (by decide) (Or.inl (by decide))

/-- C2 counterexample: host alias `nosuch` matches zero non-wildcard rules
of `exCfg`, yet the run does not abort with the UnknownHost error — the
wildcard rule's `port` option makes the resolved config non-empty, so the
run proceeds and starts an agent. -/
theorem scp_r2r_C2_counterexample :
    main_transfer exCfg ("nosuch", "/a") ("other", "/b") defaultOptions [] okOracle =
      (.uncaught (.keyError "hostname"), [.readConfig, .agentStart, .agentStop],
        [("SSH_AUTH_SOCK", "/tmp/agent.1"), ("SSH_AGENT_PID", "99")]) ∧
    Event.agentStart ∈
      (main_transfer exCfg ("nosuch", "/a") ("other", "/b") defaultOptions [] okOracle).2.1 :=
  ⟨by decide, by decide⟩

/-- C2 (amended): the run aborts with the UnknownHost error, listing the
configured aliases, exactly when a host's *resolved option mapping* is
empty (not when it merely matches zero non-wildcard rules); on that path no
agent is started and no key is loaded. -/
theorem scp_r2r_C2_amended (cfg : SSHConfig) (n1 p1 n2 p2 : String) (opts : Options)
    (environ : Dict) (oracle : Oracle)
    (h : lookup cfg n1 = [] ∨ lookup cfg n2 = []) :
    main_transfer cfg (n1, p1) (n2, p2) opts environ oracle =
      (.exit2 (unknownHostMsg (if lookup cfg n1 = [] then n1 else n2)),
        [.readConfig, .listKnownHosts (knownHosts cfg)], environ) ∧
    Event.agentStart ∉ (main_transfer cfg (n1, p1) (n2, p2) opts environ oracle).2.1 ∧
    (∀ fs, Event.loadKeys fs ∉
      (main_transfer cfg (n1, p1) (n2, p2) opts environ oracle).2.1) := by
  by_cases h1 : lookup cfg n1 = []
  · refine ⟨by simp [main_transfer, h1], by simp [main_transfer, h1], ?_⟩
    intro fs
    simp [main_transfer, h1]
  · have h2 : lookup cfg n2 = [] := h.resolve_left h1
    refine ⟨by simp [main_transfer, h1, h2], by simp [main_transfer, h1, h2], ?_⟩
    intro fs
    simp [main_transfer, h1, h2]

/-- Witness for the amended C2: with a config holding only an option-less
wildcard rule, an unknown host aborts before any agent activity. -/
theorem scp_r2r_C2_amended_witness :
    main_transfer bareCfg ("x", "/a") ("y", "/b") defaultOptions [] okOracle =
      (.exit2 (unknownHostMsg (if lookup bareCfg "x" = [] then "x" else "y")),
        [.readConfig, .listKnownHosts (knownHosts bareCfg)], []) ∧
    Event.agentStart ∉
      (main_transfer bareCfg ("x", "/a") ("y", "/b") defaultOptions [] okOracle).2.1 :=
  ⟨(scp_r2r_C2_amended bareCfg "x" "/a" "y" "/b" defaultOptions [] okOracle
      (Or.inl (by decide))).1,
    (scp_r2r_C2_amended bareCfg "x" "/a" "y" "/b" defaultOptions [] okOracle
      (Or.inl (by decide))).2.1⟩

/-- C1: the `-C` flag is declared with `action='store_false'` although its
help text reads "enable compression", so `options.compression` is `None`
by default and `False` when the flag is passed — either way falsy — and
the synthesized remote-copy command never contains `-C`, contradicting the
claim that passing the flag adds it. -/
theorem scp_r2r_C1_bug_eval (cFlagPassed : Bool) :
    scpCommand exH1 exH2
      { defaultOptions with compression := compressionOptValue cFlagPassed } =
      .ok ["/usr/bin/ssh", "-A", "-t", "h1", "scp", "-p", "-ouser=bob", "/a",
        "h2.example.org:/b"] ∧
    "-C" ∉ ["/usr/bin/ssh", "-A", "-t", "h1", "scp", "-p", "-ouser=bob", "/a",
      "h2.example.org:/b"] := by
  cases cFlagPassed <;> exact ⟨rfl, by decide⟩

/-- C3: an agent announcement holding only a process-id pair makes
`ssh_agent_start` fail with an uncaught `KeyError` (raised while the debug
call formats `agent['SSH_AUTH_SOCK']`), not with the `ScpError` the claim
describes; that `ScpError` is raised only when no recognized pair is found
at all. -/
theorem scp_r2r_C3_bug_eval :
    ssh_agent_start "SSH_AGENT_PID=123;" = .error (.keyError "SSH_AUTH_SOCK") ∧
    ssh_agent_start "xyz" =
      .error (.scpError "Cannot determine agent data from output: xyz") :=
  ⟨rfl, rfl⟩

/-- C6: direction handling of the transfer — push connects to host1 with
source = host1's path and target `<host2 hostname>:<host2 path>`; pull
connects to host2 with source `<host1 hostname>:<host1 path>` and target
host2's path, or `~` when that path is empty; the command places the
connect host's alias inside the invocation and ends with source, target. -/
theorem scp_r2r_C6 (h1 h2 : HostSpec) (opts : Options) (hn1 hn2 : String)
    (hh1 : Dict.get? h1.config "hostname" = some hn1)
    (hh2 : Dict.get? h2.config "hostname" = some hn2) :
    (opts.push = true →
      scpEndpoints h1 h2 opts.push = .ok (h1, h2, h1.path, hn2 ++ ":" ++ h2.path) ∧
      scpCommand h1 h2 opts =
        .ok (scpAssemble h1 h2 h1.path (hn2 ++ ":" ++ h2.path) opts)) ∧
    (opts.push = false →
      scpEndpoints h1 h2 opts.push =
        .ok (h2, h1, hn1 ++ ":" ++ h1.path, if h2.path = "" then "~" else h2.path) ∧
      scpCommand h1 h2 opts =
        .ok (scpAssemble h2 h1 (hn1 ++ ":" ++ h1.path)
          (if h2.path = "" then "~" else h2.path) opts)) ∧
    (∀ c r s t, c.name ∈ scpAssemble c r s t opts ∧
      ∃ pre, scpAssemble c r s t opts = pre ++ [s, t]) := by
  refine ⟨?_, ?_, ?_⟩
  · intro hp
    exact ⟨by simp [scpEndpoints, hp, hh2], by simp [scpCommand, scpEndpoints, hp, hh2]⟩
  · intro hp
    exact ⟨by simp [scpEndpoints, hp, hh1], by simp [scpCommand, scpEndpoints, hp, hh1]⟩
  · intro c r s t
    constructor
    · simp [scpAssemble]
    · refine ⟨[SSH_PATH, "-A", "-t"]
        ++ (if opts.verbose then ["-v"] else [])
        ++ [c.name, "scp", "-p"]
        ++ (if opts.verbose then ["-v"] else [])
        ++ (match opts.limit with
            | some n => if !(n == 0) then ["-l", toString n] else []
            | none => [])
        ++ (if optTruthy opts.recursive then ["-r"] else [])
        ++ (if optTruthy opts.compression then ["-C"] else [])
        ++ (r.config.filter
              (fun kv => !(kv.1 == "identityfile" || kv.1 == "hostname"))).map
            (fun kv => "-o" ++ kv.1 ++ "=" ++ kv.2), ?_⟩
      simp [scpAssemble, List.append_assoc]

/-- Witness for C6 at concrete hosts, in the default push direction. -/
theorem scp_r2r_C6_witness :
    scpEndpoints exH1 exH2 defaultOptions.push =
      .ok (exH1, exH2, exH1.path, "h2.example.org" ++ ":" ++ exH2.path) ∧
    scpCommand exH1 exH2 defaultOptions =
      .ok (scpAssemble exH1 exH2 exH1.path ("h2.example.org" ++ ":" ++ exH2.path)
        defaultOptions) :=
  (scp_r2r_C6 exH1 exH2 defaultOptions "h1.example.org" "h2.example.org"
    (by decide) (by decide)).1 rfl

/-- C10: in push mode an empty destination path yields the target
`<hostname>:` with no path component, and the `~` substitution never
applies to a push target. -/
theorem scp_r2r_C10 (h1 h2 : HostSpec) (hn2 : String)
    (hh2 : Dict.get? h2.config "hostname" = some hn2) :
    (h2.path = "" → scpEndpoints h1 h2 true = .ok (h1, h2, h1.path, hn2 ++ ":")) ∧
    (∀ c r s t, scpEndpoints h1 h2 true = .ok (c, r, s, t) → t ≠ "~") := by
  constructor
  · intro hp
    simp [scpEndpoints, hh2, hp, String.append_empty]
  · intro c r s t hok ht
    simp only [scpEndpoints, if_pos rfl, hh2] at hok
    have ht4 : hn2 ++ ":" ++ h2.path = t := by
      injection hok with hok2
      injection hok2 with _ hok3
      injection hok3 with _ hok4
      injection hok4
    have hmem : ':' ∈ (hn2 ++ ":" ++ h2.path).data := by
      simp [String.data_append]
    rw [ht4, ht] at hmem
    exact absurd hmem (by decide)

/-- Witness for C10: push with an empty destination path. -/
theorem scp_r2r_C10_witness :
    scpEndpoints exH1 h2Empty true =
      .ok (exH1, h2Empty, exH1.path, "h2.example.org" ++ ":") :=
  (scp_r2r_C10 exH1 h2Empty "h2.example.org" (by decide)).1 rfl

/-- C9: a positional argument is accepted exactly when it contains one `:`
separator; when either argument fails this, `main` raises the usage error
before `main_transfer` runs, so no configuration is read and no event is
emitted; an argument ending in `:` (empty path) is accepted. -/
theorem scp_r2r_C9 (a b : String) (opts : Options) (cfg : SSHConfig)
    (environ : Dict) (oracle : Oracle) :
    ((parseHostArg a).isSome = true ↔ a.data.count ':' = 1) ∧
    (a.data.count ':' ≠ 1 ∨ b.data.count ':' ≠ 1 →
      mainRun [a, b] opts cfg environ oracle = (.usageError hostFormMsg, [], environ)) ∧
    (∀ n : String, ':' ∉ n.data → parseHostArg (n ++ ":") = some (n, "")) := by
  refine ⟨parseHostArg_isSome a, ?_, ?_⟩
  · intro h
    rcases h with h | h
    · have hpa : parseHostArg a = none := by
        cases hp : parseHostArg a with
        | none => rfl
        | some x => exact absurd ((parseHostArg_isSome a).mp (by simp [hp])) h
      simp [mainRun, hpa]
    · have hpb : parseHostArg b = none := by
        cases hp : parseHostArg b with
        | none => rfl
        | some x => exact absurd ((parseHostArg_isSome b).mp (by simp [hp])) h
      cases hp : parseHostArg a <;> simp [mainRun, hp, hpb]
  · intro n hn
    unfold parseHostArg
    have hdata : (n ++ ":").data = n.data ++ [':'] := by
      simp [String.data_append]
    rw [hdata, splitOnChar_append_sep ':' n.data hn]

/-- Witness for C9: an argument with no colon is rejected with the usage
error before anything else happens. -/
theorem scp_r2r_C9_witness :
    mainRun ["a:b", "nope"] defaultOptions [] [] okOracle =
      (.usageError hostFormMsg, [], []) :=
  (scp_r2r_C9 "a:b" "nope" defaultOptions [] [] okOracle).2.1 (Or.inr (by decide))

/-- C7: the `-o…` elements of the synthesized command are exactly one
`-o<option>=<value>` override per entry of the remote host's resolved
config minus the `identityfile` and `hostname` keys; every non-excluded
entry contributes its override, and no override for the two excluded keys
appears (the hypotheses rule out other argv elements that merely look like
overrides, and config keys never contain `=` because the parser splits at
the first `=`). -/
theorem scp_r2r_C7 (c r : HostSpec) (s t : String) (opts : Options)
    (hc : isDashO c.name = false) (hs : isDashO s = false) (ht : isDashO t = false)
    (hlim : ∀ n : Int, opts.limit = some n → isDashO (toString n) = false)
    (hkeys : ∀ kv ∈ r.config, '=' ∉ kv.1.data) :
    ((scpAssemble c r s t opts).filter isDashO =
      (r.config.filter
        (fun kv => !(kv.1 == "identityfile" || kv.1 == "hostname"))).map
        (fun kv => "-o" ++ kv.1 ++ "=" ++ kv.2)) ∧
    (∀ kv ∈ r.config, (!(kv.1 == "identityfile" || kv.1 == "hostname")) = true →
      ("-o" ++ kv.1 ++ "=" ++ kv.2) ∈ scpAssemble c r s t opts) ∧
    (∀ v : String,
      ("-o" ++ "identityfile" ++ "=" ++ v) ∉ scpAssemble c r s t opts ∧
      ("-o" ++ "hostname" ++ "=" ++ v) ∉ scpAssemble c r s t opts) := by
  have hA : List.filter isDashO [SSH_PATH, "-A", "-t"] = [] := by decide
  have hV : List.filter isDashO (if opts.verbose then ["-v"] else []) = [] := by
    cases opts.verbose <;> decide
  have hN : List.filter isDashO [c.name, "scp", "-p"] = [] := by
    apply filter_isDashO_nil
    intro x hx
    simp only [List.mem_cons, List.not_mem_nil, or_false] at hx
    rcases hx with h | h | h <;> subst h
    · exact hc
    · decide
    · decide
  have hL : List.filter isDashO
      (match opts.limit with
       | some n => if !(n == 0) then ["-l", toString n] else []
       | none => []) = [] := by
    cases hl : opts.limit with
    | none => rfl
    | some n =>
      cases hz : (!(n == 0)) with
      | false => simp [hz]
      | true =>
        have hml : isDashO "-l" = false := by decide
        simp [hz, List.filter_cons, hml, hlim n hl]
  have hR : List.filter isDashO (if optTruthy opts.recursive then ["-r"] else []) = [] := by
    cases optTruthy opts.recursive <;> decide
  have hC : List.filter isDashO (if optTruthy opts.compression then ["-C"] else []) = [] := by
    cases optTruthy opts.compression <;> decide
  have hST : List.filter isDashO [s, t] = [] := by
    simp [List.filter_cons, hs, ht]
  have hmain : (scpAssemble c r s t opts).filter isDashO =
      (r.config.filter
        (fun kv => !(kv.1 == "identityfile" || kv.1 == "hostname"))).map
        (fun kv => "-o" ++ kv.1 ++ "=" ++ kv.2) := by
    unfold scpAssemble
    rw [List.filter_append, List.filter_append, List.filter_append,
      List.filter_append, List.filter_append, List.filter_append,
      List.filter_append, List.filter_append]
    rw [hA, hV, hN, hL, hR, hC, hST, filter_isDashO_overrides]
    simp
  refine ⟨hmain, ?_, ?_⟩
  · intro kv hkv hexcl
    have hmem : ("-o" ++ kv.1 ++ "=" ++ kv.2) ∈
        (r.config.filter
          (fun kv => !(kv.1 == "identityfile" || kv.1 == "hostname"))).map
          (fun kv => "-o" ++ kv.1 ++ "=" ++ kv.2) :=
      List.mem_map.mpr ⟨kv, List.mem_filter.mpr ⟨hkv, hexcl⟩, rfl⟩
    unfold scpAssemble
    simp only [List.mem_append]
    tauto
  · intro v
    constructor
    · intro hbad
      have hin : ("-o" ++ "identityfile" ++ "=" ++ v) ∈
          (scpAssemble c r s t opts).filter isDashO :=
        List.mem_filter.mpr ⟨hbad, isDashO_fmt _ _⟩
      rw [hmain] at hin
      obtain ⟨kv, hkvf, heq⟩ := List.mem_map.mp hin
      obtain ⟨hkvmem, hpred⟩ := List.mem_filter.mp hkvf
      have hkeq : kv.1 = "identityfile" :=
        fmt_key_inj kv.1 kv.2 "identityfile" v (hkeys kv hkvmem) (by decide) heq
      rw [hkeq] at hpred
      simp at hpred
    · intro hbad
      have hin : ("-o" ++ "hostname" ++ "=" ++ v) ∈
          (scpAssemble c r s t opts).filter isDashO :=
        List.mem_filter.mpr ⟨hbad, isDashO_fmt _ _⟩
      rw [hmain] at hin
      obtain ⟨kv, hkvf, heq⟩ := List.mem_map.mp hin
      obtain ⟨hkvmem, hpred⟩ := List.mem_filter.mp hkvf
      have hkeq : kv.1 = "hostname" :=
        fmt_key_inj kv.1 kv.2 "hostname" v (hkeys kv hkvmem) (by decide) heq
      rw [hkeq] at hpred
      simp at hpred

/-- Witness for C7: concrete remote config with excluded and included
keys. -/
theorem scp_r2r_C7_witness :
    (scpAssemble cW rW "/p" "r.example.org:/q" defaultOptions).filter isDashO =
      ["-oport=2222", "-ouser=bob"] := by
  have h := (scp_r2r_C7 cW rW "/p" "r.example.org:/q" defaultOptions (by decide)
    (by decide) (by decide) (fun n hn => Option.noConfusion hn) (by decide)).1
  rw [h]
  decide
